import Mathlib

/-!
Shallow embedding of `scripts/NORA3_ERA5/NORA3_ERA5.py`.

Timestamps are modelled as integers counting whole hours since
1970-01-01 00:00 UTC (every request handled by the script is a
whole-hour `datetime`).  With this epoch the calendar date of a
timestamp is its floor quotient by 24 and `datetime.hour` is the
remainder, which matches the floor conventions of Python for the
positive divisor 24.  Calendar dates are represented by that day
number; the `strftime` year/month/day rendering of a date is an
injective function of the day number, so file identity is modelled by
the triple (day number, forecast period, file index).
-/

/-- Hour of day of a timestamp: the `hour` attribute of a Python `datetime`. -/
def hourOfDay (t : Int) : Int := t % 24

/-- Forecast period (cycle start hour) ladder from `get_nora3_timeseries`
(lines 485-492): hour < 6 gives 0, < 12 gives 6, < 18 gives 12, else 18. -/
def periodOf (h : Int) : Int :=
  if h < 6 then 0 else if h < 12 then 6 else if h < 18 then 12 else 18

/-- Directory date of the cycle file for timestamp `t`: the script formats
`current_time_with_offset = current_time - timedelta(hours=4)` with
`strftime`, i.e. the calendar day of `t - 4` hours (line 482, 501-503). -/
def cycleDay (t : Int) : Int := (t - 4) / 24

/-- Cycle start hour for timestamp `t`, computed from the hour of day of the
offset time `t - 4h` (lines 485-492). -/
def cyclePeriod (t : Int) : Int := periodOf (hourOfDay (t - 4))

/-- Forecast-hour file index for timestamp `t`:
`index_file = current_time.hour - period`, plus 24 if negative (lines 495-497). -/
def indexFileOf (t : Int) : Int :=
  if hourOfDay t - cyclePeriod t < 0 then hourOfDay t - cyclePeriod t + 24
  else hourOfDay t - cyclePeriod t

/-- Largest element of the cycle-start set not exceeding `h`, written from
the words of the specification ("the latest of 00, 06, 12, 18 not exceeding
the hour of day"), to be compared with the ladder of the source. -/
def specCycleStart (h : Int) : Int :=
  (([0, 6, 12, 18] : List Int).filter (fun c => decide (c ≤ h))).foldl max 0

lemma hourOfDay_nonneg (t : Int) : 0 ≤ hourOfDay t :=
  Int.emod_nonneg t (by norm_num)

lemma hourOfDay_lt (t : Int) : hourOfDay t < 24 :=
  Int.emod_lt_of_pos t (by norm_num)

lemma specCycleStart_eq_periodOf (h : Int) (h0 : 0 ≤ h) (h24 : h < 24) :
    specCycleStart h = periodOf h := by
  interval_cases h <;> decide

lemma cyclePeriod_eq (t : Int) : cyclePeriod t = 6 * ((t - 4) % 24 / 6) := by
  unfold cyclePeriod periodOf hourOfDay
  split_ifs <;> omega

lemma indexFileOf_eq (t : Int) :
    indexFileOf t = (t % 24 - 6 * ((t - 4) % 24 / 6)) % 24 := by
  unfold indexFileOf hourOfDay
  rw [cyclePeriod_eq]
  split_ifs <;> omega

/-- C2: for every hourly timestamp `t`, the primary-archive file requested for
`t` has directory date equal to the calendar date of `t - 4h`, cycle hour
equal to the largest of 0, 6, 12, 18 not exceeding the hour of day of
`t - 4h` (hour < 6 gives 0, < 12 gives 6, < 18 gives 12, else 18), and
forecast-hour index `t.hour - cycle` wrapped into [0, 23] by adding 24 when
negative. -/
theorem primary_cycle_file_rule (t : Int) :
    cycleDay t = (t - 4) / 24
    ∧ cyclePeriod t = specCycleStart (hourOfDay (t - 4))
    ∧ (hourOfDay (t - 4) < 6 → cyclePeriod t = 0)
    ∧ (6 ≤ hourOfDay (t - 4) → hourOfDay (t - 4) < 12 → cyclePeriod t = 6)
    ∧ (12 ≤ hourOfDay (t - 4) → hourOfDay (t - 4) < 18 → cyclePeriod t = 12)
    ∧ (18 ≤ hourOfDay (t - 4) → cyclePeriod t = 18)
    ∧ indexFileOf t =
        (if hourOfDay t - cyclePeriod t < 0 then hourOfDay t - cyclePeriod t + 24
         else hourOfDay t - cyclePeriod t)
    ∧ 0 ≤ indexFileOf t ∧ indexFileOf t ≤ 23 := by
  have h0 := hourOfDay_nonneg (t - 4)
  have h24 := hourOfDay_lt (t - 4)
  have ht0 := hourOfDay_nonneg t
  have ht24 := hourOfDay_lt t
  refine ⟨rfl, ?_, ?_, ?_, ?_, ?_, rfl, ?_, ?_⟩
  · rw [specCycleStart_eq_periodOf _ h0 h24]; rfl
  · intro h; unfold cyclePeriod periodOf; rw [if_pos h]
  · intro h1 h2; unfold cyclePeriod periodOf
    rw [if_neg (by omega), if_pos h2]
  · intro h1 h2; unfold cyclePeriod periodOf
    rw [if_neg (by omega), if_neg (by omega), if_pos h2]
  · intro h1; unfold cyclePeriod periodOf
    rw [if_neg (by omega), if_neg (by omega), if_neg (by omega)]
  · rw [indexFileOf_eq]; unfold hourOfDay at *; omega
  · rw [indexFileOf_eq]; unfold hourOfDay at *; omega

/-- Closed instance of `primary_cycle_file_rule`, discharging its conditional
conjuncts at concrete timestamps. -/
theorem primary_cycle_file_rule_witness :
    cyclePeriod 100 = 0 ∧ cyclePeriod 111 = 6 ∧ cyclePeriod 117 = 12
      ∧ cyclePeriod 123 = 18 :=
  ⟨(primary_cycle_file_rule 100).2.2.1 (by decide),
   (primary_cycle_file_rule 111).2.2.2.1 (by decide) (by decide),
   (primary_cycle_file_rule 117).2.2.2.2.1 (by decide) (by decide),
   (primary_cycle_file_rule 123).2.2.2.2.2.1 (by decide)⟩

/-- C3: walking the request hour by hour, the cycle file either stays in the
same forecast cycle with the file index incremented by one, or jumps from
index 9 to index 4 of the next sequential cycle (six hours later, rolling the
date at the 18 UTC cycle); indices within a cycle are never skipped or
repeated. -/
theorem cycle_enumeration_sequential (t : Int) :
    (cycleDay (t + 1) = cycleDay t ∧ cyclePeriod (t + 1) = cyclePeriod t
      ∧ indexFileOf (t + 1) = indexFileOf t + 1)
    ∨ (indexFileOf t = 9 ∧ indexFileOf (t + 1) = 4
      ∧ ((cyclePeriod t ≠ 18 ∧ cycleDay (t + 1) = cycleDay t
            ∧ cyclePeriod (t + 1) = cyclePeriod t + 6)
        ∨ (cyclePeriod t = 18 ∧ cycleDay (t + 1) = cycleDay t + 1
            ∧ cyclePeriod (t + 1) = 0))) := by
  simp only [cycleDay, cyclePeriod_eq, indexFileOf_eq]
  omega

/-! Archive selection in `get_timeseries` (lines 117-153) and the coordinate
range checks of `get_era5_timeseries` (lines 226-229) and
`get_nora3_timeseries` (lines 437-440).  Hour constants below are hours since
the 1970-01-01 epoch: `datetime(1979, 1, 1)` is day 3287, hour 78888;
`datetime(2019, 12, 31)` is day 18261, hour 438264; the regional epoch
`datetime(1997, 8, 1, 4)` is day 10074, hour 241780. -/

def available_atm_params : List String := ["msl", "u10", "v10"]

def available_wave_params : List String := ["msl", "mwd", "mp2", "pp1d", "swh"]

/-- The NORA3 name-translation table `atm_params_nora3` (lines 135-139),
with `none` for a key the dictionary does not hold, where the Python dict
lookup raises `KeyError`. -/
def atm_params_nora3 (p : String) : Option String :=
  if p = "msl" then some "air_pressure_at_sea_level"
  else if p = "u10" then some "x_wind_10m"
  else if p = "v10" then some "y_wind_10m"
  else none

/-- Result of a `get_timeseries` call: which archive the extraction proceeds
into, a raised `RuntimeError`, or an unhandled `KeyError` from a dict
lookup. -/
inductive TsOutcome where
  | ok (archive : String)
  | runtimeError (msg : String)
  | keyError (key : String)
deriving DecidableEq

/-- Dispatch logic of `get_timeseries` (lines 141-153): parameter and time
sanity checks, then the regional test
`start_time >= datetime(1997, 8, 1, 4) and 44.0 <= lat <= 83.0 and
-30.0 <= lon <= 85.0`; the regional branch first evaluates
`atm_params_nora3[param]`. -/
def get_timeseries (param : String) (lon lat : ℚ) (start_time end_time : Int) :
    TsOutcome :=
  if ¬ (param ∈ available_atm_params ∨ param ∈ available_wave_params) then
    .runtimeError ("Undefined parameter: " ++ param)
  else if 438264 < start_time ∨ start_time < 78888 then
    .runtimeError "Start time outside data set time interval"
  else if 438264 < end_time ∨ end_time < 78888 then
    .runtimeError "End time outside data set time interval"
  else if 241780 ≤ start_time ∧ 44 ≤ lat ∧ lat ≤ 83 ∧ -30 ≤ lon ∧ lon ≤ 85 then
    match atm_params_nora3 param with
    | some _ => .ok "NORA3"
    | none => .keyError param
  else .ok "ERA5"

/-- Coordinate check of `get_era5_timeseries` (lines 226-229), translated
with the Python chained-comparison semantics:
`-90.0 > lat > 90.0` is `(-90.0 > lat) and (lat > 90.0)`, and
`0.0 > lon >= 360.0` is `(0.0 > lon) and (lon >= 360.0)`. -/
def era5_range_error (lon lat : ℚ) : Bool :=
  (decide (-90 > lat) && decide (lat > 90)) || (decide ((0 : ℚ) > lon) && decide (lon ≥ 360))

/-- Coordinate check of `get_nora3_timeseries` (lines 437-440):
`any(x < 44.0 for x in lat) and any(x > 83.0 for x in lat)`, and the same
shape for longitude. -/
def nora3_range_error (lons lats : List ℚ) : Bool :=
  (lats.any (fun x => decide (x < 44)) && lats.any (fun x => decide (x > 83)))
  || (lons.any (fun x => decide (x < -30)) && lons.any (fun x => decide (x > 85)))

/-- C8 (code bug evidence): the ERA5 latitude/longitude check is an
unsatisfiable chained comparison, so it never raises for any coordinates;
and the NORA3 check does not fire for the out-of-domain station list
lat = [100.0], lon = [10.0] even though 100 lies outside [44, 83], because
it demands one latitude below 44 and another above 83 at the same time. -/
theorem range_check_never_fires :
    (∀ lon lat : ℚ, era5_range_error lon lat = false)
    ∧ nora3_range_error [10] [100] = false
    ∧ ¬ ((44 : ℚ) ≤ 100 ∧ (100 : ℚ) ≤ 83) := by
  refine ⟨?_, by decide, by norm_num⟩
  intro lon lat
  simp only [era5_range_error, Bool.or_eq_false_iff, Bool.and_eq_false_iff,
    decide_eq_false_iff_not, not_lt]
  constructor
  · by_cases h : (-90 : ℚ) > lat
    · right; linarith
    · left; simpa using h
  · by_cases h : (0 : ℚ) > lon
    · right; linarith
    · left; simpa using h

/-- C9: under the parameter and time sanity checks, `get_timeseries` enters
the regional (NORA3) branch exactly when `start_time` is at or after the
regional epoch 1997-08-01 04:00 and the point lies in the regional bounding
box (boundaries included); otherwise it extracts from ERA5. -/
theorem get_timeseries_selects_regional (param : String) (lon lat : ℚ)
    (s e : Int)
    (hp : param ∈ available_atm_params ∨ param ∈ available_wave_params)
    (hs1 : 78888 ≤ s) (hs2 : s ≤ 438264) (he1 : 78888 ≤ e) (he2 : e ≤ 438264) :
    ((get_timeseries param lon lat s e = .ok "NORA3"
        ∨ get_timeseries param lon lat s e = .keyError param)
      ↔ (241780 ≤ s ∧ 44 ≤ lat ∧ lat ≤ 83 ∧ -30 ≤ lon ∧ lon ≤ 85))
    ∧ (¬ (241780 ≤ s ∧ 44 ≤ lat ∧ lat ≤ 83 ∧ -30 ≤ lon ∧ lon ≤ 85) →
        get_timeseries param lon lat s e = .ok "ERA5") := by
  unfold get_timeseries
  rw [if_neg (not_not_intro hp), if_neg (by omega), if_neg (by omega)]
  by_cases hc : 241780 ≤ s ∧ 44 ≤ lat ∧ lat ≤ 83 ∧ -30 ≤ lon ∧ lon ≤ 85
  · rw [if_pos hc]
    refine ⟨⟨fun _ => hc, fun _ => ?_⟩, fun h => absurd hc h⟩
    cases h : atm_params_nora3 param
    · exact Or.inr rfl
    · exact Or.inl rfl
  · rw [if_neg hc]
    exact ⟨⟨fun h => by rcases h with h | h <;> simp at h, fun h => absurd h hc⟩,
      fun _ => rfl⟩

/-- Boundary witness for C9: latitude exactly 44.0 and start time exactly at
the regional epoch select the regional archive. -/
theorem get_timeseries_selects_regional_witness :
    get_timeseries "msl" 10 44 241780 241780 = .ok "NORA3" ∨
      get_timeseries "msl" 10 44 241780 241780 = .keyError "msl" :=
  (get_timeseries_selects_regional "msl" 10 44 241780 241780
    (by decide) (by decide) (by decide) (by decide) (by decide)).1.mpr
    (by norm_num)

/-- C10: a wave-only parameter passes the top-level parameter check, and
whenever the regional branch is selected the call dies with an unhandled
`KeyError` from the NORA3 name-translation table instead of returning a
series or falling back to ERA5. -/
theorem wave_param_regional_keyerror (param : String) (lon lat : ℚ)
    (s e : Int)
    (hp : param = "mwd" ∨ param = "mp2" ∨ param = "pp1d" ∨ param = "swh")
    (hs1 : 78888 ≤ s) (hs2 : s ≤ 438264) (he1 : 78888 ≤ e) (he2 : e ≤ 438264)
    (hreg : 241780 ≤ s ∧ 44 ≤ lat ∧ lat ≤ 83 ∧ -30 ≤ lon ∧ lon ≤ 85) :
    get_timeseries param lon lat s e = .keyError param := by
  unfold get_timeseries
  rw [if_neg ?hp, if_neg (by omega), if_neg (by omega), if_pos hreg]
  case hp =>
    rcases hp with h | h | h | h <;> subst h <;> decide
  rcases hp with h | h | h | h <;> subst h <;> rfl

/-- Closed witness for C10 at lat 44, lon 10, start and end at the regional
epoch, parameter `swh`. -/
theorem wave_param_regional_keyerror_witness :
    get_timeseries "swh" 10 44 241780 241780 = .keyError "swh" :=
  wave_param_regional_keyerror "swh" 10 44 241780 241780
    (by simp) (by decide) (by decide) (by decide) (by decide)
    (by norm_num)

/-! Hourly file enumeration of `get_nora3_timeseries` (lines 480-516) and the
time axis of a non-accumulated extraction.  Each enumerated cycle file holds
exactly the one hourly sample at its timestamp (layout convention of the
archive), so the time axis of the lazily concatenated dataset is the
enumerated timestamp list. -/

/-- Timestamps visited by the while loop `while current_time <= end_time`
advancing by one hour (lines 481, 516).  The fuel argument is the iteration
count of the loop, made explicit for termination. -/
def hoursFrom (s : Int) : Nat → List Int
  | 0 => []
  | n + 1 => s :: hoursFrom (s + 1) n

/-- Hourly enumeration over the closed interval from `s` to `e`. -/
def enumHours (s e : Int) : List Int := hoursFrom s (e + 1 - s).toNat

/-- Time axis of a non-accumulated atmospheric extraction: the concatenated
per-hour samples sliced with `sel(time=slice(start_time, end_time))`
(line 570). -/
def seriesTimesAtm (s e : Int) : List Int :=
  (enumHours s e).filter (fun t => decide (s ≤ t) && decide (t ≤ e))

lemma hoursFrom_eq_map (n : Nat) : ∀ s : Int,
    hoursFrom s n = (List.range n).map (fun j : Nat => s + (j : Int)) := by
  induction n with
  | zero => intro s; rfl
  | succ n ih =>
    intro s
    rw [List.range_succ_eq_map, List.map_cons, List.map_map]
    have h1 : ((fun j : Nat => s + (j : Int)) ∘ Nat.succ)
        = fun j : Nat => (s + 1) + (j : Int) := by
      funext j
      simp only [Function.comp_apply, Nat.cast_succ]
      ring
    rw [h1, ← ih (s + 1)]
    simp [hoursFrom]

lemma enumHours_eq_map (s e : Int) :
    enumHours s e = (List.range (e + 1 - s).toNat).map (fun j : Nat => s + (j : Int)) :=
  hoursFrom_eq_map _ s

lemma mem_enumHours {s e t : Int} : t ∈ enumHours s e ↔ s ≤ t ∧ t ≤ e := by
  rw [enumHours_eq_map]
  simp only [List.mem_map, List.mem_range]
  constructor
  · rintro ⟨j, hj, rfl⟩
    omega
  · rintro ⟨h1, h2⟩
    exact ⟨(t - s).toNat, by omega, by omega⟩

lemma seriesTimesAtm_eq (s e : Int) :
    seriesTimesAtm s e = (List.range (e + 1 - s).toNat).map (fun j : Nat => s + (j : Int)) := by
  unfold seriesTimesAtm
  rw [List.filter_eq_self.mpr, enumHours_eq_map]
  intro t ht
  rw [mem_enumHours] at ht
  simp only [Bool.and_eq_true, decide_eq_true_eq]
  omega

/-- C5 (amended): the assembled time axis of an hourly non-accumulated
extraction over the closed interval from `s` to `e` is exactly one sample
per hour, `s, s+1, ...` (strictly increasing in steps of one hour), and over
an interval of form [T, T+23h] it has exactly 24 samples. -/
theorem atm_series_one_sample_per_hour (s e : Int) :
    seriesTimesAtm s e = (List.range (e + 1 - s).toNat).map (fun j : Nat => s + (j : Int))
    ∧ (seriesTimesAtm s (s + 23)).length = 24 := by
  refine ⟨seriesTimesAtm_eq s e, ?_⟩
  rw [seriesTimesAtm_eq]
  simp only [List.length_map, List.length_range]
  omega

/-! The 3-hour window augmentation of `_get_nora3_timeseries_sfx`
(lines 321-350). -/

/-- Line 322: `augmented_start_time = start_time - timedelta(hours=(start_time.hour % 3))`. -/
def augmented_start_time (s : Int) : Int := s - hourOfDay s % 3

/-- Line 323: `augmented_end_time = end_time + timedelta(hours=(end_time.hour % 3))`. -/
def augmented_end_time (e : Int) : Int := e + hourOfDay e % 3

/-- Timestamps visited by the sfx while loop advancing by three hours
(lines 325-350), fuel being the iteration count. -/
def hoursFromBy3 (s : Int) : Nat → List Int
  | 0 => []
  | n + 1 => s :: hoursFromBy3 (s + 3) n

/-- Three-hourly enumeration over the closed interval from `s` to `e`. -/
def enumHours3 (s e : Int) : List Int := hoursFromBy3 s ((e - s) / 3 + 1).toNat

/-- C4 (code bug evidence): the augmented start is floored to a 3-hour
boundary below start_time as claimed, and the augmented end never precedes
end_time, but the augmented end hour is not rounded up to a 3-hour boundary:
for an end time at hour 1 of a day the code yields hour 2 (claim says the
ceiling, hour 3), and the enumerated three-hourly file times of the window
from hour 0 to hour 1 are just [hour 0], so no enumerated file reaches
end_time. -/
theorem sfx_window_end_not_ceiled :
    (∀ s : Int, augmented_start_time s ≤ s ∧ hourOfDay (augmented_start_time s) % 3 = 0)
    ∧ (∀ e : Int, e ≤ augmented_end_time e)
    ∧ augmented_end_time 1 = 2
    ∧ hourOfDay (augmented_end_time 1) % 3 ≠ 0
    ∧ enumHours3 (augmented_start_time 0) (augmented_end_time 1) = [0] := by
  refine ⟨?_, ?_, by decide, by decide, by decide⟩
  · intro s
    unfold augmented_start_time hourOfDay
    constructor <;> omega
  · intro e
    unfold augmented_end_time hourOfDay
    omega

/-! De-accumulation of integrated parameters (lines 578-706 of
`get_nora3_timeseries`).  The assembled accumulated series and the spinup
series are modelled by their time lists together with value functions
`acc`, `spin : Int -> values`; the sample one hour before the window,
fetched through the first-timestep rule (lines 456-478), is the value
`prev`.  Station values live in `Fin (n + 1) -> Int`: the engine only
subtracts and compares samples, so exact integers model the float data of
the source faithfully for every claim considered (any ordered abelian group
would do; integers keep every definition kernel-computable).  The height
dimension of the source arrays has size one and is kept implicit. -/

/-- Times of a series whose hour of day is `h`, in series order: the
selection `sel(time=series.time.dt.hour == h)` used on lines 622-695. -/
def hourTimes (times : List Int) (h : Int) : List Int :=
  times.filter (fun t => decide (hourOfDay t = h))

/-- Position of the first occurrence of `t` in a list of times.  The numpy
value assignments pair the target hour-of-day list with the source list by
position; this function recovers that position. -/
def posOf : List Int → Int → Option Nat
  | [], _ => none
  | a :: l, t => if a = t then some 0 else (posOf l t).map (· + 1)

/-- Spinup sample times for a window (lines 506-514 and 583-586): while
enumerating `t`, whenever `index_file == 4` the file at index 3 of the same
cycle is appended; the cycle file at index `j` holds the valid time
`24 * day + period + j`, so that file holds the sample at `t - 1`.  The
opened spinup series is then sliced to `slice(start_time, end_time - 1h)`. -/
def spinupTimes (s e : Int) : List Int :=
  (((enumHours s e).filter (fun t => decide (indexFileOf t = 4))).map
    (fun t => t - 1)).filter (fun u => decide (s ≤ u) && decide (u ≤ e - 1))

/-- Value at time `t` of the de-accumulated series for a single station,
before the final negative clamp.  Every right-hand side of the hour-of-day
assignments on lines 622-695 reads the deep copy `nora3_da_original` (`acc`)
or the spinup series (`spin`); each assignment pairs the hour-of-day target
time list positionally with its source list.  Hour 0 is assigned only from
the second midnight on (line 636-638), and line 698 finally overwrites the
first sample with `acc(first) - prev`, which the first branch captures.  A
positional lookup that runs past the end of the source list corresponds to a
shape mismatch that raises in the source; the fallback `acc t` of that case
is unreachable under the `alignedB` shape check below. -/
def deaccumVal (times spinTimes : List Int) (acc spin : Int → ℤ) (prev : ℤ)
    (t : Int) : ℤ :=
  if times.head? = some t then acc t - prev
  else if hourOfDay t = 4 ∨ hourOfDay t = 10 ∨ hourOfDay t = 16 ∨ hourOfDay t = 22 then
    match (posOf (hourTimes times (hourOfDay t)) t).bind
        (fun i => (hourTimes spinTimes (hourOfDay t - 1))[i]?) with
    | some u => acc t - spin u
    | none => acc t
  else if hourOfDay t = 0 then
    match posOf (hourTimes times 0) t with
    | some (k + 1) =>
      match (hourTimes times 23)[k]? with
      | some u => acc t - acc u
      | none => acc t
    | _ => acc t
  else
    match (posOf (hourTimes times (hourOfDay t)) t).bind
        (fun i => (hourTimes times (hourOfDay t - 1))[i]?) with
    | some u => acc t - acc u
    | none => acc t

/-- Full engine output for station `k` out of `n + 1` stations, with the
final clamp of lines 700-704: that loop enumerates the size-one height
dimension of the first time step, so its body runs exactly once, tests the
station-0 value, and `nora3_da[0].values[0] = 0.0` zeroes the whole first
time step when that value is negative. -/
def engineOut (times spinTimes : List Int) {n : Nat}
    (acc spin : Int → Fin (n + 1) → ℤ) (prev : Fin (n + 1) → ℤ)
    (t : Int) (k : Fin (n + 1)) : ℤ :=
  if times.head? = some t ∧
      deaccumVal times spinTimes (fun v => acc v 0) (fun v => spin v 0) (prev 0) t < 0
  then 0
  else deaccumVal times spinTimes (fun v => acc v k) (fun v => spin v k) (prev k) t

/-- Hours assigned from the previous accumulated sample (lines 640-695),
in source order. -/
def otherHours : List Int :=
  [1, 2, 3, 5, 6, 7, 8, 9, 11, 12, 13, 14, 15, 17, 18, 19, 20, 21, 23]

/-- Shape compatibility of all hour-of-day assignments: a target list and
its positional source list must have the same length, else the numpy
assignment raises.  (The length-one broadcast corner of numpy does not
arise in the windows considered here.) -/
def alignedB (times spinTimes : List Int) : Bool :=
  (([4, 10, 16, 22] : List Int).all
    (fun h => (hourTimes times h).length == (hourTimes spinTimes (h - 1)).length))
  && ((hourTimes times 0).length == (hourTimes times 23).length)
  && (otherHours.all
    (fun h => (hourTimes times h).length == (hourTimes times (h - 1)).length))

lemma posOf_eq_none {l : List Int} {t : Int} (h : t ∉ l) : posOf l t = none := by
  induction l with
  | nil => rfl
  | cons a l ih =>
    have ha : ¬ a = t := fun hat => h (by simp [hat])
    have ht : t ∉ l := fun htl => h (List.mem_cons_of_mem a htl)
    simp [posOf, ha, ih ht]

lemma posOf_map_range : ∀ (n : Nat) (f : Nat → Int),
    (∀ i j : Nat, f i = f j → i = j) →
    ∀ i : Nat, i < n → posOf ((List.range n).map f) (f i) = some i := by
  intro n
  induction n with
  | zero => intro f hf i hi; omega
  | succ n ih =>
    intro f hf i hi
    rw [List.range_succ_eq_map, List.map_cons, List.map_map]
    cases i with
    | zero => simp [posOf]
    | succ k =>
      have h0 : ¬ f 0 = f (k + 1) := fun h => by have := hf _ _ h; omega
      have hk : k < n := by omega
      have hrec : posOf ((List.range n).map (f ∘ Nat.succ)) (f (k + 1)) = some k :=
        ih (f ∘ Nat.succ) (fun i j h => by have := hf _ _ h; omega) k hk
      simp only [posOf, if_neg h0, hrec, Option.map_some']
    
lemma getElem?_map_range (f : Nat → Int) (n i : Nat) (hi : i < n) :
    ((List.range n).map f)[i]? = some (f i) := by
  rw [List.getElem?_map, List.getElem?_range hi]
  rfl

lemma hourOfDay_shift (d c : Int) : hourOfDay (24 * d + c) = c % 24 := by
  unfold hourOfDay
  omega

lemma filter_range_eq_single (x : Nat) : ∀ n : Nat, x < n →
    (List.range n).filter (fun j => decide (j = x)) = [x] := by
  intro n
  induction n with
  | zero => intro h; omega
  | succ n ih =>
    intro hx
    rw [List.range_succ, List.filter_append]
    by_cases hxn : x = n
    · subst hxn
      rw [List.filter_eq_nil.mpr, List.nil_append]
      · simp
      · intro j hj
        simp only [List.mem_range] at hj
        simp only [decide_eq_true_eq]
        omega
    · rw [ih (by omega)]
      have : (List.filter (fun j => decide (j = x)) [n]) = [] := by
        simp [hxn]
        omega
      rw [this, List.append_nil]

lemma hoursFrom_append (p q : Nat) : ∀ s : Int,
    hoursFrom s (p + q) = hoursFrom s p ++ hoursFrom (s + (p : Int)) q := by
  induction p with
  | zero =>
    intro s
    simp [hoursFrom]
  | succ p ih =>
    intro s
    have hpq : p + 1 + q = (p + q) + 1 := by omega
    rw [hpq]
    show s :: hoursFrom (s + 1) (p + q) = (s :: hoursFrom (s + 1) p) ++ _
    rw [List.cons_append, ih (s + 1)]
    have : s + 1 + (p : Int) = s + ((p : Nat) + 1 : Nat) := by push_cast; ring
    rw [this]

lemma hourTimes_block (d h : Int) (h0 : 0 ≤ h) (h24 : h < 24) :
    hourTimes (hoursFrom (24 * d) 24) h = [24 * d + h] := by
  rw [hoursFrom_eq_map]
  unfold hourTimes
  rw [List.filter_map]
  have hcong : ((List.range 24).filter
        ((fun t => decide (hourOfDay t = h)) ∘ fun j : Nat => 24 * d + (j : Int)))
      = (List.range 24).filter (fun j => decide (j = h.toNat)) := by
    apply List.filter_congr
    intro j hj
    simp only [List.mem_range] at hj
    simp only [Function.comp_apply, hourOfDay_shift]
    apply decide_eq_decide.mpr
    omega
  rw [hcong, filter_range_eq_single h.toNat 24 (by omega)]
  simp only [List.map_cons, List.map_nil]
  congr 1
  omega

lemma hourTimes_day_aligned (h : Int) (h0 : 0 ≤ h) (h24 : h < 24) :
    ∀ (m : Nat) (a : Int),
      hourTimes (enumHours (24 * a) (24 * (a + (m : Int)) + 23)) h
        = (List.range (m + 1)).map (fun i : Nat => 24 * (a + (i : Int)) + h) := by
  intro m
  induction m with
  | zero =>
    intro a
    have he : enumHours (24 * a) (24 * (a + ((0 : Nat) : Int)) + 23)
        = hoursFrom (24 * a) 24 := by
      unfold enumHours
      congr 1
      omega
    rw [he, hourTimes_block a h h0 h24, show List.range (0 + 1) = [0] from rfl]
    simp
  | succ m ih =>
    intro a
    have he : enumHours (24 * a) (24 * (a + ((m + 1 : Nat) : Int)) + 23)
        = hoursFrom (24 * a) (24 + (24 * m + 24)) := by
      unfold enumHours
      congr 1
      omega
    have hshift : 24 * a + ((24 : Nat) : Int) = 24 * (a + 1) := by push_cast; ring
    rw [he, hoursFrom_append 24 (24 * m + 24) (24 * a), hshift]
    unfold hourTimes
    rw [List.filter_append]
    have hblock := hourTimes_block a h h0 h24
    unfold hourTimes at hblock
    rw [hblock]
    have htail : enumHours (24 * (a + 1)) (24 * ((a + 1) + (m : Int)) + 23)
        = hoursFrom (24 * (a + 1)) (24 * m + 24) := by
      unfold enumHours
      congr 1
      omega
    have hih := ih (a + 1)
    rw [htail] at hih
    unfold hourTimes at hih
    rw [hih]
    have hfs : ((fun i : Nat => 24 * (a + (i : Int)) + h) ∘ Nat.succ)
        = fun i : Nat => 24 * ((a + 1) + (i : Int)) + h := by
      funext i
      simp only [Function.comp_apply, Nat.cast_succ]
      ring
    have hrhs : (List.range (m + 1 + 1)).map (fun i : Nat => 24 * (a + (i : Int)) + h)
        = (24 * a + h) :: (List.range (m + 1)).map
            (fun i : Nat => 24 * ((a + 1) + (i : Int)) + h) := by
      rw [List.range_succ_eq_map, List.map_cons, List.map_map, hfs]
      congr 1
      push_cast
      ring
    rw [hrhs]
    rfl

lemma indexFile_four_iff (t : Int) :
    indexFileOf t = 4 ↔
      (hourOfDay t = 4 ∨ hourOfDay t = 10 ∨ hourOfDay t = 16 ∨ hourOfDay t = 22) := by
  rw [indexFileOf_eq]
  unfold hourOfDay
  omega

lemma spinupTimes_day_aligned (m : Nat) (a : Int) :
    spinupTimes (24 * a) (24 * (a + (m : Int)) + 23)
      = ((enumHours (24 * a) (24 * (a + (m : Int)) + 23)).filter
          (fun t => decide (indexFileOf t = 4))).map (fun t => t - 1) := by
  unfold spinupTimes
  apply List.filter_eq_self.mpr
  intro u hu
  obtain ⟨t, htmem, rfl⟩ := List.mem_map.mp hu
  obtain ⟨htenum, hidxt⟩ := List.mem_filter.mp htmem
  rw [mem_enumHours] at htenum
  have h4 : indexFileOf t = 4 := of_decide_eq_true hidxt
  have hquad := (indexFile_four_iff t).mp h4
  simp only [Bool.and_eq_true, decide_eq_true_eq]
  unfold hourOfDay at hquad
  rcases hquad with hx | hx | hx | hx <;> omega

lemma spinup_day_aligned (h : Int)
    (hq : h = 4 ∨ h = 10 ∨ h = 16 ∨ h = 22) (m : Nat) (a : Int) :
    hourTimes (spinupTimes (24 * a) (24 * (a + (m : Int)) + 23)) (h - 1)
      = (List.range (m + 1)).map (fun i : Nat => 24 * (a + (i : Int)) + (h - 1)) := by
  have hb1 : (1 : Int) ≤ h := by rcases hq with rfl | rfl | rfl | rfl <;> norm_num
  have hb2 : h ≤ 23 := by rcases hq with rfl | rfl | rfl | rfl <;> norm_num
  unfold hourTimes
  rw [spinupTimes_day_aligned m a, List.filter_map, List.filter_filter]
  show List.map (fun t : Int => t - 1)
      (List.filter
        (fun t : Int => decide (hourOfDay (t - 1) = h - 1) && decide (indexFileOf t = 4))
        (enumHours (24 * a) (24 * (a + (m : Int)) + 23))) = _
  have hcong : List.filter
        (fun t : Int => decide (hourOfDay (t - 1) = h - 1) && decide (indexFileOf t = 4))
        (enumHours (24 * a) (24 * (a + (m : Int)) + 23))
      = List.filter (fun t : Int => decide (hourOfDay t = h))
        (enumHours (24 * a) (24 * (a + (m : Int)) + 23)) := by
    apply List.filter_congr
    intro t _
    by_cases hth : hourOfDay t = h
    · have e1 : hourOfDay (t - 1) = h - 1 := by unfold hourOfDay at *; omega
      have e4 : indexFileOf t = 4 := by
        rw [indexFile_four_iff]
        rcases hq with rfl | rfl | rfl | rfl <;> omega
      simp [e1, e4, hth]
    · have e1 : ¬ hourOfDay (t - 1) = h - 1 := by unfold hourOfDay at *; omega
      simp [e1, hth]
  rw [hcong]
  have hA := hourTimes_day_aligned h (by omega) (by omega) m a
  unfold hourTimes at hA
  rw [hA, List.map_map]
  have hcomp : ((fun t : Int => t - 1) ∘ fun i : Nat => 24 * (a + (i : Int)) + h)
      = fun i : Nat => 24 * (a + (i : Int)) + (h - 1) := by
    funext i
    simp only [Function.comp_apply]
    ring
  rw [hcomp]

lemma head_enumHours_day_aligned (m : Nat) (a : Int) :
    (enumHours (24 * a) (24 * (a + (m : Int)) + 23)).head? = some (24 * a) := by
  unfold enumHours
  have hfuel : (24 * (a + (m : Int)) + 23 + 1 - 24 * a).toNat = 24 * m + 24 := by
    omega
  rw [hfuel]
  rfl

lemma alignedB_day_aligned (m : Nat) (a : Int) :
    alignedB (enumHours (24 * a) (24 * (a + (m : Int)) + 23))
      (spinupTimes (24 * a) (24 * (a + (m : Int)) + 23)) = true := by
  have key2 : ∀ h : Int, (h = 4 ∨ h = 10 ∨ h = 16 ∨ h = 22) →
      (hourTimes (enumHours (24 * a) (24 * (a + (m : Int)) + 23)) h).length
        = (hourTimes (spinupTimes (24 * a) (24 * (a + (m : Int)) + 23)) (h - 1)).length := by
    intro h hq
    have hb : 0 ≤ h ∧ h < 24 := by rcases hq with rfl | rfl | rfl | rfl <;> norm_num
    rw [hourTimes_day_aligned h hb.1 hb.2 m a, spinup_day_aligned h hq m a]
    simp
  have key1 : ∀ h1 h2 : Int, 0 ≤ h1 → h1 < 24 → 0 ≤ h2 → h2 < 24 →
      (hourTimes (enumHours (24 * a) (24 * (a + (m : Int)) + 23)) h1).length
        = (hourTimes (enumHours (24 * a) (24 * (a + (m : Int)) + 23)) h2).length := by
    intro h1 h2 b1 b2 b3 b4
    rw [hourTimes_day_aligned h1 b1 b2 m a, hourTimes_day_aligned h2 b3 b4 m a]
    simp
  unfold alignedB otherHours
  simp only [List.all_cons, List.all_nil, Bool.and_true, Bool.and_eq_true, beq_iff_eq]
  repeat' apply And.intro
  all_goals first
    | (apply key2; norm_num)
    | (apply key1 <;> norm_num)

lemma deaccumVal_head (times spins : List Int) (acc spin : Int → ℤ) (prev : ℤ)
    (t : Int) (hhead : times.head? = some t) :
    deaccumVal times spins acc spin prev t = acc t - prev := by
  unfold deaccumVal
  rw [if_pos hhead]

lemma deaccumVal_quad (times spins : List Int) (acc spin : Int → ℤ) (prev : ℤ)
    (t : Int) (h : Int) (i : Nat)
    (hth : hourOfDay t = h)
    (hhead : ¬ times.head? = some t)
    (hq : h = 4 ∨ h = 10 ∨ h = 16 ∨ h = 22)
    (hpos : posOf (hourTimes times h) t = some i)
    (hget : (hourTimes spins (h - 1))[i]? = some (t - 1)) :
    deaccumVal times spins acc spin prev t = acc t - spin (t - 1) := by
  subst hth
  unfold deaccumVal
  rw [if_neg hhead, if_pos hq, hpos]
  simp [hget]

lemma deaccumVal_midnight (times spins : List Int) (acc spin : Int → ℤ) (prev : ℤ)
    (t : Int) (k : Nat)
    (hth : hourOfDay t = 0)
    (hhead : ¬ times.head? = some t)
    (hpos : posOf (hourTimes times 0) t = some (k + 1))
    (hget : (hourTimes times 23)[k]? = some (t - 1)) :
    deaccumVal times spins acc spin prev t = acc t - acc (t - 1) := by
  unfold deaccumVal
  rw [if_neg hhead, if_neg (by rw [hth]; decide), if_pos hth, hpos]
  simp [hget]

lemma deaccumVal_other (times spins : List Int) (acc spin : Int → ℤ) (prev : ℤ)
    (t : Int) (h : Int) (i : Nat)
    (hth : hourOfDay t = h)
    (hhead : ¬ times.head? = some t)
    (hq : ¬ (h = 4 ∨ h = 10 ∨ h = 16 ∨ h = 22))
    (h0 : ¬ h = 0)
    (hpos : posOf (hourTimes times h) t = some i)
    (hget : (hourTimes times (h - 1))[i]? = some (t - 1)) :
    deaccumVal times spins acc spin prev t = acc t - acc (t - 1) := by
  subst hth
  unfold deaccumVal
  rw [if_neg hhead, if_neg hq, if_neg h0, hpos]
  simp [hget]

lemma engineOut_no_clamp {n : Nat} (times spins : List Int)
    (acc spin : Int → Fin (n + 1) → ℤ) (prev : Fin (n + 1) → ℤ) (t : Int)
    (k : Fin (n + 1))
    (hnc : ¬ (times.head? = some t ∧
      deaccumVal times spins (fun v => acc v 0) (fun v => spin v 0) (prev 0) t < 0)) :
    engineOut times spins acc spin prev t k
      = deaccumVal times spins (fun v => acc v k) (fun v => spin v k) (prev k) t := by
  unfold engineOut
  rw [if_neg hnc]

/-- C1 (amended): over a day-aligned window (start at hour 0 of day `a`,
end at hour 23 of day `a + m`) all hour-of-day assignment shapes match, and
for every station the de-accumulated output equals: the first sample is
`acc(start) - prev` with `prev` the sample fetched through the first-timestep
rule; a sample at hour of day 4, 10, 16, or 22 is `acc(t) - spin(t - 1h)`;
every other sample (hour 0 differencing against hour 23 of the previous day)
is `acc(t) - acc(t - 1h)`.  On monotone accumulated input (hypothesis
`prev 0 <= acc(start) 0`) the final negative clamp does not fire, so on
synthetic monotone data the engine reproduces the ground-truth hourly
increments at all non-cycle-boundary hours. -/
theorem deaccum_day_aligned_window (a : Int) (m : Nat) {ns : Nat}
    (acc spin : Int → Fin (ns + 1) → ℤ) (prev : Fin (ns + 1) → ℤ)
    (t : Int) (k : Fin (ns + 1))
    (ht1 : 24 * a ≤ t) (ht2 : t ≤ 24 * (a + (m : Int)) + 23)
    (hfirst : prev 0 ≤ acc (24 * a) 0) :
    alignedB (enumHours (24 * a) (24 * (a + (m : Int)) + 23))
        (spinupTimes (24 * a) (24 * (a + (m : Int)) + 23)) = true
    ∧ (t = 24 * a →
        engineOut (enumHours (24 * a) (24 * (a + (m : Int)) + 23))
            (spinupTimes (24 * a) (24 * (a + (m : Int)) + 23)) acc spin prev t k
          = acc t k - prev k)
    ∧ (t ≠ 24 * a →
        (hourOfDay t = 4 ∨ hourOfDay t = 10 ∨ hourOfDay t = 16 ∨ hourOfDay t = 22) →
        engineOut (enumHours (24 * a) (24 * (a + (m : Int)) + 23))
            (spinupTimes (24 * a) (24 * (a + (m : Int)) + 23)) acc spin prev t k
          = acc t k - spin (t - 1) k)
    ∧ (t ≠ 24 * a →
        ¬ (hourOfDay t = 4 ∨ hourOfDay t = 10 ∨ hourOfDay t = 16 ∨ hourOfDay t = 22) →
        engineOut (enumHours (24 * a) (24 * (a + (m : Int)) + 23))
            (spinupTimes (24 * a) (24 * (a + (m : Int)) + 23)) acc spin prev t k
          = acc t k - acc (t - 1) k) := by
  have hh0 := hourOfDay_nonneg t
  have hh24 := hourOfDay_lt t
  have hmod : t % 24 = hourOfDay t := rfl
  have hhead := head_enumHours_day_aligned m a
  obtain ⟨i, hi, hrep⟩ : ∃ i : Nat, i < m + 1 ∧ t = 24 * (a + (i : Int)) + hourOfDay t :=
    ⟨(t / 24 - a).toNat, by omega, by omega⟩
  refine ⟨alignedB_day_aligned m a, ?_, ?_, ?_⟩
  · intro hteq
    subst hteq
    rw [engineOut_no_clamp]
    · exact deaccumVal_head _ _ _ _ _ _ hhead
    · rintro ⟨-, hlt⟩
      rw [deaccumVal_head _ _ _ _ _ _ hhead] at hlt
      exact absurd hfirst (by linarith)
  · intro hne hq
    have hhead' : ¬ (enumHours (24 * a) (24 * (a + (m : Int)) + 23)).head? = some t := by
      rw [hhead]
      intro hc
      exact hne (Option.some.inj hc).symm
    have hinj : ∀ p q : Nat,
        24 * (a + (p : Int)) + hourOfDay t = 24 * (a + (q : Int)) + hourOfDay t → p = q := by
      intro p q hpq
      omega
    have hpos : posOf (hourTimes (enumHours (24 * a) (24 * (a + (m : Int)) + 23))
        (hourOfDay t)) t = some i := by
      rw [hourTimes_day_aligned (hourOfDay t) hh0 hh24 m a]
      have h2 : posOf ((List.range (m + 1)).map
          (fun j : Nat => 24 * (a + (j : Int)) + hourOfDay t))
          (24 * (a + (i : Int)) + hourOfDay t) = some i :=
        posOf_map_range (m + 1) _ hinj i hi
      rwa [← hrep] at h2
    have hget : (hourTimes (spinupTimes (24 * a) (24 * (a + (m : Int)) + 23))
        (hourOfDay t - 1))[i]? = some (t - 1) := by
      rw [spinup_day_aligned (hourOfDay t) hq m a, getElem?_map_range _ (m + 1) i hi]
      congr 1
      omega
    rw [engineOut_no_clamp]
    · exact deaccumVal_quad _ _ _ _ _ _ (hourOfDay t) i rfl hhead' hq hpos hget
    · rintro ⟨hc, -⟩
      exact hhead' hc
  · intro hne hq
    have hhead' : ¬ (enumHours (24 * a) (24 * (a + (m : Int)) + 23)).head? = some t := by
      rw [hhead]
      intro hc
      exact hne (Option.some.inj hc).symm
    by_cases hzero : hourOfDay t = 0
    · rw [hzero] at hrep
      have hpos : posOf (hourTimes (enumHours (24 * a) (24 * (a + (m : Int)) + 23)) 0) t
          = some i := by
        rw [hourTimes_day_aligned 0 (by norm_num) (by norm_num) m a]
        have h2 : posOf ((List.range (m + 1)).map
            (fun j : Nat => 24 * (a + (j : Int)) + 0))
            (24 * (a + (i : Int)) + 0) = some i :=
          posOf_map_range (m + 1) _ (by intro p q hpq; omega) i hi
        rwa [← hrep] at h2
      obtain ⟨kk, rfl⟩ : ∃ kk, i = kk + 1 := ⟨i - 1, by omega⟩
      have hget : (hourTimes (enumHours (24 * a) (24 * (a + (m : Int)) + 23)) 23)[kk]?
          = some (t - 1) := by
        rw [hourTimes_day_aligned 23 (by norm_num) (by norm_num) m a,
          getElem?_map_range _ (m + 1) kk (by omega)]
        congr 1
        omega
      rw [engineOut_no_clamp]
      · exact deaccumVal_midnight _ _ _ _ _ _ kk hzero hhead' hpos hget
      · rintro ⟨hc, -⟩
        exact hhead' hc
    · have hinj : ∀ p q : Nat,
          24 * (a + (p : Int)) + hourOfDay t = 24 * (a + (q : Int)) + hourOfDay t → p = q := by
        intro p q hpq
        omega
      have hpos : posOf (hourTimes (enumHours (24 * a) (24 * (a + (m : Int)) + 23))
          (hourOfDay t)) t = some i := by
        rw [hourTimes_day_aligned (hourOfDay t) hh0 hh24 m a]
        have h2 : posOf ((List.range (m + 1)).map
            (fun j : Nat => 24 * (a + (j : Int)) + hourOfDay t))
            (24 * (a + (i : Int)) + hourOfDay t) = some i :=
          posOf_map_range (m + 1) _ hinj i hi
        rwa [← hrep] at h2
      have hget : (hourTimes (enumHours (24 * a) (24 * (a + (m : Int)) + 23))
          (hourOfDay t - 1))[i]? = some (t - 1) := by
        rw [hourTimes_day_aligned (hourOfDay t - 1) (by omega) (by omega) m a,
          getElem?_map_range _ (m + 1) i hi]
        congr 1
        omega
      rw [engineOut_no_clamp]
      · exact deaccumVal_other _ _ _ _ _ _ (hourOfDay t) i rfl hhead' hq hzero hpos hget
      · rintro ⟨hc, -⟩
        exact hhead' hc

/-- Closed instance of `deaccum_day_aligned_window` on the single day
starting at hour 0, identity accumulated data, evaluated at hour 5. -/
theorem deaccum_day_aligned_window_witness :
    engineOut (enumHours (24 * 0) (24 * (0 + ((0 : Nat) : Int)) + 23))
        (spinupTimes (24 * 0) (24 * (0 + ((0 : Nat) : Int)) + 23))
        (fun t (_ : Fin 1) => t) (fun _ _ => 0) (fun _ => 0) 5 0 = 1 := by
  have h := (@deaccum_day_aligned_window 0 0 0 (fun t (_ : Fin 1) => t)
    (fun _ _ => 0) (fun _ => 0) 5 0 (by norm_num) (by norm_num) (by norm_num)).2.2.2
    (by norm_num) (by decide)
  rw [h]
  norm_num

/-- Identity accumulated data on one station, for the counterexample
window. -/
def accCE : Int → Fin 1 → ℤ := fun t _ => t

/-- Zero spinup data for the counterexample window. -/
def spinCE : Int → Fin 1 → ℤ := fun _ _ => 0

/-- Preceding sample for the counterexample window (accumulated value one
below the first window sample, keeping the clamp idle). -/
def prevCE : Fin 1 → ℤ := fun _ => 11

/-- C1 (counterexample): over the contiguous hourly window from hour 12 to
hour 35 every assignment shape matches, yet the output at the midnight
sample (hour 24) is the raw accumulated value 24, not the hourly increment
`acc(24) - acc(23) = 1` demanded by the claim: with only one midnight in the
window, `midnight_indices[1:]` is empty and the sample is never assigned. -/
theorem deaccum_midday_window_counterexample :
    alignedB (enumHours 12 35) (spinupTimes 12 35) = true
    ∧ engineOut (enumHours 12 35) (spinupTimes 12 35) accCE spinCE prevCE 24 0 = 24
    ∧ accCE 24 0 - accCE 23 0 = 1
    ∧ (24 : ℤ) ≠ 1 := by
  refine ⟨by decide, by decide, by decide, by decide⟩

/-- C7 (amended): the final clamp tests only the station-0 value of the
first output time step; when that value is negative the whole first time
step is zeroed for every station, and no sample at any other time step is
changed by the clamp. -/
theorem clamp_only_first_timestep_station0 (times spins : List Int) {ns : Nat}
    (acc spin : Int → Fin (ns + 1) → ℤ) (prev : Fin (ns + 1) → ℤ)
    (t : Int) (k : Fin (ns + 1)) :
    (times.head? = some t →
      deaccumVal times spins (fun v => acc v 0) (fun v => spin v 0) (prev 0) t < 0 →
      engineOut times spins acc spin prev t k = 0)
    ∧ (times.head? = some t →
      ¬ deaccumVal times spins (fun v => acc v 0) (fun v => spin v 0) (prev 0) t < 0 →
      engineOut times spins acc spin prev t k
        = deaccumVal times spins (fun v => acc v k) (fun v => spin v k) (prev k) t)
    ∧ (¬ times.head? = some t →
      engineOut times spins acc spin prev t k
        = deaccumVal times spins (fun v => acc v k) (fun v => spin v k) (prev k) t) := by
  unfold engineOut
  refine ⟨fun h1 h2 => ?_, fun h1 h2 => ?_, fun h1 => ?_⟩
  · rw [if_pos ⟨h1, h2⟩]
  · rw [if_neg (fun hc => h2 hc.2)]
  · rw [if_neg (fun hc => h1 hc.1)]

/-- Closed instance of `clamp_only_first_timestep_station0`: zero data with
a positive preceding sample makes the first de-accumulated sample negative,
and the clamp zeroes it. -/
theorem clamp_only_first_timestep_station0_witness :
    engineOut (enumHours 0 23) (spinupTimes 0 23)
        (fun _ (_ : Fin 1) => 0) (fun _ _ => 0) (fun _ => 1) 0 0 = 0 :=
  (clamp_only_first_timestep_station0 (enumHours 0 23) (spinupTimes 0 23)
    (fun _ (_ : Fin 1) => 0) (fun _ _ => 0) (fun _ => 1) 0 0).1 (by decide) (by decide)

/-- Two-station accumulated data: station 0 holds the identity, station 1
holds constant zero. -/
def accC7 : Int → Fin 2 → ℤ := fun t k => if k = 0 then t else 0

/-- Zero spinup data on two stations. -/
def spinC7 : Int → Fin 2 → ℤ := fun _ _ => 0

/-- Preceding samples making the first de-accumulated value of station 1
negative while station 0 stays non-negative. -/
def prevC7 : Fin 2 → ℤ := fun k => if k = 0 then 0 else 5

/-- C7 (counterexample): at the first output time step station 1 carries the
negative de-accumulated value -5, but because station 0 is non-negative the
clamp loop leaves it untouched: a negative first-timestep value that is not
replaced by zero. -/
theorem clamp_misses_negative_station_counterexample :
    deaccumVal (enumHours 0 23) (spinupTimes 0 23)
        (fun v => accC7 v 1) (fun v => spinC7 v 1) (prevC7 1) 0 < 0
    ∧ engineOut (enumHours 0 23) (spinupTimes 0 23) accC7 spinC7 prevC7 0 1 = -5
    ∧ ((-5 : ℤ) ≠ 0) := by
  refine ⟨by decide, by decide, by decide⟩

/-! The known-corrupt 2020-02-29 18 UTC cycle (lines 527-529) and the
zero-fill patches (lines 595-614).  `datetime(2020, 2, 29)` is day 18321
since the 1970-01-01 epoch, so the prefix filter on
`.../2020/02/29/18/fc2020022918` removes exactly the files whose cycle is
(day 18321, period 18). -/

/-- Test whether the cycle file for timestamp `t` is removed by the prefix
filter of lines 527-529. -/
def excludedCycleB (t : Int) : Bool :=
  decide (cycleDay t = 18321) && decide (cyclePeriod t = 18)

/-- Hour number of `datetime(2020, 2, 29, 0)`. -/
def t2020_02_29_00 : Int := 18321 * 24

/-- Hour number of `datetime(2020, 2, 29, 21)`. -/
def t2020_02_29_21 : Int := 18321 * 24 + 21

/-- Hour number of `datetime(2020, 2, 29, 22)`. -/
def t2020_02_29_22 : Int := 18321 * 24 + 22

/-- Hour number of `datetime(2020, 2, 29, 23)`. -/
def t2020_02_29_23 : Int := 18321 * 24 + 23

/-- Hour number of `datetime(2020, 3, 1, 0)`. -/
def t2020_03_01_00 : Int := 18322 * 24

/-- Time axis of the assembled accumulated series over the window [s, e]:
the hourly enumeration minus the excluded 18 UTC cycle files, with the
zero-filled samples of lines 597-606 appended when
`end_time == datetime(2020, 2, 29, 23)` and those of lines 608-613
prepended when `start_time == datetime(2020, 3, 1, 0)`. -/
def assembledTimes (s e : Int) : List Int :=
  let base := (enumHours s e).filter (fun t => ! excludedCycleB t)
  let base2 := if e = t2020_02_29_23
    then base ++ [t2020_02_29_22, t2020_02_29_23] else base
  if s = t2020_03_01_00 then
    [t2020_03_01_00, t2020_03_01_00 + 1, t2020_03_01_00 + 2, t2020_03_01_00 + 3] ++ base2
  else base2

/-- Values of the assembled accumulated series: zero at the patch samples,
the archive value elsewhere. -/
def assembledVal (s e : Int) (acc : Int → ℤ) (t : Int) : ℤ :=
  if (e = t2020_02_29_23 ∧ (t = t2020_02_29_22 ∨ t = t2020_02_29_23))
      ∨ (s = t2020_03_01_00 ∧ t2020_03_01_00 ≤ t ∧ t ≤ t2020_03_01_00 + 3) then 0
  else acc t

/-- Spinup time axis with the exclusion of line 529 and the zero patch of
lines 603-606 appended when `end_time == datetime(2020, 2, 29, 23)`. -/
def assembledSpinTimes (s e : Int) : List Int :=
  let base := (((enumHours s e).filter
      (fun t => decide (indexFileOf t = 4) && ! excludedCycleB t)).map
      (fun t => t - 1)).filter (fun u => decide (s ≤ u) && decide (u ≤ e - 1))
  if e = t2020_02_29_23 then base ++ [t2020_02_29_21] else base

/-- Spinup values with the zero patch sample. -/
def assembledSpinVal (e : Int) (spin : Int → ℤ) (t : Int) : ℤ :=
  if e = t2020_02_29_23 ∧ t = t2020_02_29_21 then 0 else spin t

/-- C6 (counterexample): the accumulated-variable window from
2020-02-29 00:00 to 2020-03-01 23:00 covers 2020-02-29 18:00 through 23:00,
and every assignment shape still matches, so the extraction returns; yet no
sample at all, zero-filled or otherwise, exists at 2020-02-29 22:00.  The
zero-fill substitution fires only when end_time is exactly
2020-02-29 23:00 or start_time is exactly 2020-03-01 00:00. -/
theorem excluded_cycle_gap_counterexample :
    (t2020_02_29_00 ≤ 18321 * 24 + 18 ∧ t2020_02_29_23 ≤ t2020_03_01_00 + 23)
    ∧ t2020_02_29_22 ∉ assembledTimes t2020_02_29_00 (t2020_03_01_00 + 23)
    ∧ alignedB (assembledTimes t2020_02_29_00 (t2020_03_01_00 + 23))
        (assembledSpinTimes t2020_02_29_00 (t2020_03_01_00 + 23)) = true := by
  refine ⟨by decide, by decide, by decide⟩

/-- C5 (counterexample to the unconditional one-sample-per-hour clause):
over the accumulated window from 2020-02-29 00:00 to 2020-03-01 23:00 every
assignment shape matches, so the extraction returns, but the returned time
axis has only 42 samples for a 48-hour closed interval. -/
theorem accumulated_gap_window_counterexample :
    alignedB (assembledTimes t2020_02_29_00 (t2020_03_01_00 + 23))
        (assembledSpinTimes t2020_02_29_00 (t2020_03_01_00 + 23)) = true
    ∧ (assembledTimes t2020_02_29_00 (t2020_03_01_00 + 23)).length = 42
    ∧ (t2020_03_01_00 + 23) + 1 - t2020_02_29_00 = 48 := by
  refine ⟨by decide, by decide, by decide⟩

/-- C6 (amended): with end_time exactly 2020-02-29 23:00 the corrupt
18 UTC cycle files are removed and zero placeholders substituted, so the
assembled axis is again the full hourly enumeration, every assignment shape
matches, the placeholder values are zero, and the de-accumulated output at
22:00 and 23:00 is the zero placeholder difference 0. -/
theorem excluded_cycle_end_patch :
    assembledTimes t2020_02_29_00 t2020_02_29_23
        = enumHours t2020_02_29_00 t2020_02_29_23
    ∧ alignedB (assembledTimes t2020_02_29_00 t2020_02_29_23)
        (assembledSpinTimes t2020_02_29_00 t2020_02_29_23) = true
    ∧ assembledVal t2020_02_29_00 t2020_02_29_23 (fun u => u) t2020_02_29_22 = 0
    ∧ assembledVal t2020_02_29_00 t2020_02_29_23 (fun u => u) t2020_02_29_23 = 0
    ∧ engineOut (assembledTimes t2020_02_29_00 t2020_02_29_23)
        (assembledSpinTimes t2020_02_29_00 t2020_02_29_23)
        (fun t (_ : Fin 1) => assembledVal t2020_02_29_00 t2020_02_29_23 (fun u => u) t)
        (fun t _ => assembledSpinVal t2020_02_29_23 (fun u => u) t)
        (fun _ => 0) t2020_02_29_22 0 = 0
    ∧ engineOut (assembledTimes t2020_02_29_00 t2020_02_29_23)
        (assembledSpinTimes t2020_02_29_00 t2020_02_29_23)
        (fun t (_ : Fin 1) => assembledVal t2020_02_29_00 t2020_02_29_23 (fun u => u) t)
        (fun t _ => assembledSpinVal t2020_02_29_23 (fun u => u) t)
        (fun _ => 0) t2020_02_29_23 0 = 0 := by
  refine ⟨by decide, by decide, by decide, by decide, by decide, by decide⟩
